import Mathlib

/-!
Shallow embedding of the live-game engine of the Sports-Management-App
repository (src/src/context/TeamContext.tsx).  Every operation below is the
body of the corresponding setter for the one game whose id matches, written
as a pure function `Game → Game`.  Conventions of the embedding:

* Wall-clock instants (`Date.now()`) are integer milliseconds (`Int`); the
  calls to `Date.now()` inside an operation are passed in as the `now`
  parameter (the source reads the clock once per operation, twice in
  `movePlayerInGame` where both reads happen within the same handler).
* `Math.round(x)` in the source is always applied to `i + ms/1000` with `i`
  an integer number of seconds and `ms` an integer number of milliseconds;
  JavaScript `Math.round` is `⌊x + 1/2⌋`, so the result is
  `(1000*i + ms + 500)` floor-divided by `1000`.  With Mathlib in scope,
  `/` on `Int` is Euclidean division, which coincides with floor division
  for the positive divisor `1000`.
* Optional numeric fields that the source always reads through `?? 0`
  (`homeScore`, `awayScore`, `timerElapsedSeconds`) are stored as `Int`
  with the default folded in; `timerStatus` (read through comparisons with
  string literals) is a two-valued enum; `lineup` keeps its `| null`
  option because the source branches on it (`!game.lineup`).
* JavaScript truthiness tests on timestamps (`game.timerStartTime`,
  `p.playtimerStartTime`) are modelled by `truthy`, which is false for
  `null` and for the number `0`.
* Generated `uuidv4()` identifiers are passed in as parameters.
* `undefined` and `null` for optional string references are both `none`.
-/

inductive Loc where
  | bench
  | field
  | inactive
deriving DecidableEq, Repr

inductive Team where
  | home
  | away
deriving DecidableEq, Repr

inductive TimerStatus where
  | stopped
  | running
deriving DecidableEq, Repr

inductive EventType where
  | goal
  | substitution
deriving DecidableEq, Repr

/-- Position on the pitch, `{x, y}` percentage coordinates.  The engine only
copies positions around, so the numeric type of the coordinates is opaque to
every claim; integers are used here. -/
structure Pos where
  x : Int
  y : Int
deriving DecidableEq, Repr

structure PlayerLineupState where
  id : String
  location : Loc
  position : Option Pos
  initialPosition : Option Pos
  playtimeSeconds : Int
  playtimerStartTime : Option Int
  isStarter : Option Bool
  subbedOnCount : Int
  subbedOffCount : Int
deriving DecidableEq, Repr

structure GameEvent where
  id : String
  type : EventType
  team : Team
  scorerPlayerId : Option String
  assistPlayerId : Option String
  playerInId : Option String
  playerOutId : Option String
  timestamp : Int
  gameSeconds : Int
deriving DecidableEq, Repr

structure Game where
  id : String
  opponent : String
  date : String
  time : String
  location : Team
  season : String
  competition : String
  homeScore : Int
  awayScore : Int
  timerStatus : TimerStatus
  timerStartTime : Option Int
  timerElapsedSeconds : Int
  isExplicitlyFinished : Bool
  lineup : Option (List PlayerLineupState)
  events : List GameEvent
deriving DecidableEq, Repr

/-- Roster entry as consumed by `createDefaultLineup`, which reads only the
player id. -/
structure Player where
  id : String
deriving DecidableEq, Repr

/-- JavaScript truthiness of a `number | null` value. -/
def truthy : Option Int → Bool
  | none => false
  | some n => n != 0

/-- `Math.round(totalMs / 1000)`: round a millisecond count to the nearest
whole second, halves away from negative infinity, as JavaScript does
(`Math.round x = ⌊x + 1/2⌋`). -/
def roundSec (totalMs : Int) : Int := (totalMs + 500) / 1000

-- createDefaultLineup (TeamContext.tsx line 163)
def createDefaultLineup (players : List Player) : List PlayerLineupState :=
  players.map (fun p =>
    { id := p.id
      location := Loc.bench
      position := none
      initialPosition := none
      playtimeSeconds := 0
      playtimerStartTime := none
      isStarter := some false
      subbedOnCount := 0
      subbedOffCount := 0 })

-- addGame (line 424): the freshly created game snapshot.
def addGame (gid opponent date time : String) (location : Team)
    (season competition : Option String) (players : List Player) : Game :=
  { id := gid
    opponent := opponent
    date := date
    time := time
    location := location
    season := (season.map String.trim).getD ""
    competition := (competition.map String.trim).getD ""
    homeScore := 0
    awayScore := 0
    timerStatus := TimerStatus.stopped
    timerStartTime := none
    timerElapsedSeconds := 0
    isExplicitlyFinished := false
    lineup := some (createDefaultLineup players)
    events := [] }

-- addGameEvent (line 427), specialised to the matching game.
def addGameEvent (now : Int) (eid : String) (team : Team)
    (scorerPlayerId : Option String) (assistPlayerId : Option String)
    (g : Game) : Game :=
  let deltaMs : Int :=
    if g.timerStatus = TimerStatus.running ∧ truthy g.timerStartTime then
      now - g.timerStartTime.getD 0
    else 0
  let newEvent : GameEvent :=
    { id := eid
      type := EventType.goal
      team := team
      scorerPlayerId := scorerPlayerId
      assistPlayerId := assistPlayerId
      playerInId := none
      playerOutId := none
      timestamp := now
      gameSeconds := roundSec (1000 * g.timerElapsedSeconds + deltaMs) }
  { g with
      events := g.events ++ [newEvent]
      homeScore := if team = Team.home then g.homeScore + 1 else g.homeScore
      awayScore := if team = Team.away then g.awayScore + 1 else g.awayScore }

/-- Index of the newest event with type `goal` and the given team — the
backing scan of `removeLastGameEvent` (line 428), which walks the events
array from the end toward the front. -/
def lastGoalIndex (team : Team) : List GameEvent → Option Nat
  | [] => none
  | e :: rest =>
    match lastGoalIndex team rest with
    | some i => some (i + 1)
    | none =>
      if e.type = EventType.goal ∧ e.team = team then some 0 else none

-- removeLastGameEvent (line 428), specialised to the matching game.
def removeLastGameEvent (team : Team) (g : Game) : Game :=
  match lastGoalIndex team g.events with
  | some i =>
    { g with
        events := g.events.eraseIdx i
        homeScore :=
          if team = Team.home then max 0 (g.homeScore - 1) else g.homeScore
        awayScore :=
          if team = Team.away then max 0 (g.awayScore - 1) else g.awayScore }
  | none => g

-- startGameTimer (line 429).  `currentDate`/`currentTime` are the strings
-- produced from the wall clock by getCurrentDate/getCurrentTime (line 159).
def startGameTimer (now : Int) (currentDate currentTime : String)
    (g : Game) : Game :=
  if g.isExplicitlyFinished then g
  else
    let newDate := if g.date ≠ currentDate then currentDate else g.date
    let newTime := if g.time ≠ currentTime then currentTime else g.time
    let isStartingFresh :=
      g.timerElapsedSeconds = 0 ∧ ¬ truthy g.timerStartTime
    let newLineup := g.lineup.map (fun l => l.map (fun p =>
      let isFieldPlayer := p.location = Loc.field
      let initialPosition :=
        if isStartingFresh ∧ isFieldPlayer then p.position
        else p.initialPosition
      let isStarter : Bool :=
        if isStartingFresh then
          decide (p.location = Loc.field ∨ p.location = Loc.bench)
        else p.isStarter.getD false
      { p with
          playtimerStartTime :=
            if isFieldPlayer then some now else p.playtimerStartTime
          isStarter := some isStarter
          initialPosition := initialPosition }))
    { g with
        date := newDate
        time := newTime
        timerStatus := TimerStatus.running
        timerStartTime := some now
        isExplicitlyFinished := false
        lineup := newLineup }

/-- The per-player reconciliation step shared verbatim by `stopGameTimer`
(line 430) and `markGameAsFinished` (line 431): flush the running personal
slice of a field-or-inactive player into `playtimeSeconds`. -/
def flushPlayer (now : Int) (p : PlayerLineupState) : PlayerLineupState :=
  if (p.location = Loc.field ∨ p.location = Loc.inactive) ∧
      truthy p.playtimerStartTime then
    { p with
        playtimeSeconds :=
          roundSec (1000 * p.playtimeSeconds +
            (now - p.playtimerStartTime.getD 0))
        playtimerStartTime := none }
  else p

-- stopGameTimer (line 430).
def stopGameTimer (now : Int) (g : Game) : Game :=
  if g.timerStatus = TimerStatus.running ∧ truthy g.timerStartTime then
    { g with
        timerStatus := TimerStatus.stopped
        timerStartTime := none
        timerElapsedSeconds :=
          roundSec (1000 * g.timerElapsedSeconds +
            (now - g.timerStartTime.getD 0))
        lineup := g.lineup.map (List.map (flushPlayer now)) }
  else g

-- markGameAsFinished (line 431).
def markGameAsFinished (now : Int) (g : Game) : Game :=
  let reconcile :=
    g.timerStatus = TimerStatus.running ∧ truthy g.timerStartTime
  let finalElapsedSeconds :=
    if reconcile then
      roundSec (1000 * g.timerElapsedSeconds +
        (now - g.timerStartTime.getD 0))
    else g.timerElapsedSeconds
  let lineupAfterFlush :=
    if reconcile then g.lineup.map (List.map (flushPlayer now)) else g.lineup
  let finalLineup :=
    lineupAfterFlush.map
      (List.map (fun p => { p with playtimerStartTime := none }))
  { g with
      timerStatus := TimerStatus.stopped
      timerStartTime := none
      timerElapsedSeconds := finalElapsedSeconds
      isExplicitlyFinished := true
      lineup := finalLineup }

-- startPlayerTimerInGame (line 432).
def startPlayerTimerInGame (now : Int) (playerId : String) (g : Game) : Game :=
  match g.lineup with
  | none => g
  | some l =>
    if g.timerStatus = TimerStatus.running then
      { g with
          lineup := some (l.map (fun p =>
            if p.id = playerId ∧ p.location = Loc.field ∧
                ¬ truthy p.playtimerStartTime then
              { p with playtimerStartTime := some now }
            else p)) }
    else g

-- stopPlayerTimerInGame (line 433).
def stopPlayerTimerInGame (now : Int) (playerId : String) (g : Game) : Game :=
  match g.lineup with
  | none => g
  | some l =>
    { g with
        lineup := some (l.map (fun p =>
          if p.id = playerId ∧ truthy p.playtimerStartTime then
            { p with
                playtimeSeconds :=
                  roundSec (1000 * p.playtimeSeconds +
                    (now - p.playtimerStartTime.getD 0))
                playtimerStartTime := none }
          else p)) }

-- resetGameLineup (line 434); `players` is the current roster.
def resetGameLineup (players : List Player) (g : Game) : Game :=
  { g with
      lineup := some (createDefaultLineup players)
      timerElapsedSeconds := 0
      timerStartTime := none
      timerStatus := TimerStatus.stopped
      isExplicitlyFinished := false
      homeScore := 0
      awayScore := 0
      events := [] }

/-- The game-active test of `movePlayerInGame` (line 435). -/
def isGameActive (g : Game) : Bool :=
  g.timerStatus = TimerStatus.running ∨
    (g.timerStatus = TimerStatus.stopped ∧ 0 < g.timerElapsedSeconds)

-- movePlayerInGame (line 435).
def movePlayerInGame (now : Int) (eid : String) (playerId : String)
    (sourceLocation targetLocation : Loc) (newPosition : Option Pos)
    (g : Game) : Game :=
  match g.lineup with
  | none => g
  | some lineup =>
    match lineup.findIdx? (fun p => p.id == playerId) with
    | none => g
    | some playerIndex =>
      match lineup.get? playerIndex with
      | none => g
      | some playerState =>
        let flushed :=
          (sourceLocation = Loc.field ∨ sourceLocation = Loc.inactive) ∧
            truthy playerState.playtimerStartTime
        let updatedPlaytime :=
          if flushed then
            roundSec (1000 * playerState.playtimeSeconds +
              (now - playerState.playtimerStartTime.getD 0))
          else playerState.playtimeSeconds
        let startTime1 : Option Int :=
          if flushed then none else playerState.playtimerStartTime
        let updatedStartTime : Option Int :=
          if targetLocation = Loc.field ∧
              g.timerStatus = TimerStatus.running ∧ startTime1 = none then
            some now
          else if targetLocation ≠ Loc.field then none
          else startTime1
        let deltaMs : Int :=
          if g.timerStatus = TimerStatus.running ∧ truthy g.timerStartTime then
            now - g.timerStartTime.getD 0
          else 0
        let eventSeconds := roundSec (1000 * g.timerElapsedSeconds + deltaMs)
        let eventTeam := if g.location = Team.home then Team.home else Team.away
        let subbedOn :=
          if isGameActive g ∧ sourceLocation = Loc.bench ∧
              targetLocation = Loc.field then
            playerState.subbedOnCount + 1
          else playerState.subbedOnCount
        let subbedOff :=
          if isGameActive g ∧ sourceLocation = Loc.field ∧
              targetLocation = Loc.bench then
            playerState.subbedOffCount + 1
          else playerState.subbedOffCount
        let substitutionEvent : Option GameEvent :=
          if isGameActive g ∧ sourceLocation = Loc.bench ∧
              targetLocation = Loc.field then
            some
              { id := eid
                type := EventType.substitution
                team := eventTeam
                scorerPlayerId := none
                assistPlayerId := none
                playerInId := some playerId
                playerOutId := none
                timestamp := now
                gameSeconds := eventSeconds }
          else if isGameActive g ∧ sourceLocation = Loc.field ∧
              targetLocation = Loc.bench then
            some
              { id := eid
                type := EventType.substitution
                team := eventTeam
                scorerPlayerId := none
                assistPlayerId := none
                playerInId := none
                playerOutId := some playerId
                timestamp := now
                gameSeconds := eventSeconds }
          else none
        let newPlayer :=
          { playerState with
              location := targetLocation
              position :=
                if targetLocation = Loc.field then newPosition else none
              playtimeSeconds := updatedPlaytime
              playtimerStartTime := updatedStartTime
              subbedOnCount := subbedOn
              subbedOffCount := subbedOff }
        { g with
            lineup := some (lineup.set playerIndex newPlayer)
            events :=
              match substitutionEvent with
              | some e => g.events ++ [e]
              | none => g.events }

/-! ## Arithmetic and list helpers -/

lemma roundSec_split (a m : Int) : roundSec (1000 * a + m) = a + roundSec m := by
  unfold roundSec; omega

lemma roundSec_nonneg (m : Int) (h : 0 ≤ m) : 0 ≤ roundSec m := by
  unfold roundSec; omega

lemma roundSec_ge_left (c m : Int) (h : 0 ≤ m) :
    c ≤ roundSec (1000 * c + m) := by
  unfold roundSec; omega

lemma list_get?_set_self {α : Type} :
    ∀ (l : List α) (i : Nat) (a : α), i < l.length →
      (l.set i a).get? i = some a
  | [], i, a => by intro h; simp at h
  | x :: xs, 0, a => by intro _; rfl
  | x :: xs, i + 1, a => by
    intro h
    simp only [List.set, List.get?]
    exact list_get?_set_self xs i a (by simpa using h)

lemma list_get?_set_ne {α : Type} :
    ∀ (l : List α) (i j : Nat) (a : α), i ≠ j →
      (l.set i a).get? j = l.get? j
  | [], i, j, a => by intro _; simp
  | x :: xs, 0, 0, a => by intro h; exact absurd rfl h
  | x :: xs, 0, j + 1, a => by intro _; rfl
  | x :: xs, i + 1, 0, a => by intro _; rfl
  | x :: xs, i + 1, j + 1, a => by
    intro h
    simp only [List.set, List.get?]
    exact list_get?_set_ne xs i j a (fun hc => h (by rw [hc]))

lemma list_mem_set {α : Type} :
    ∀ (l : List α) (i : Nat) (a b : α), b ∈ l.set i a → b = a ∨ b ∈ l
  | [], i, a, b => by intro h; simp at h
  | x :: xs, 0, a, b => by
    intro h
    rcases List.mem_cons.mp h with h | h
    · exact Or.inl h
    · exact Or.inr (List.mem_cons_of_mem _ h)
  | x :: xs, i + 1, a, b => by
    intro h
    rcases List.mem_cons.mp h with h | h
    · exact Or.inr (h ▸ List.mem_cons_self _ _)
    · rcases list_mem_set xs i a b h with h | h
      · exact Or.inl h
      · exact Or.inr (List.mem_cons_of_mem _ h)

/-! ## Concrete fixtures used by the witness theorems -/

def exPlayer : Player := ⟨"p1"⟩

def exGame : Game :=
  addGame "g1" "Rivals" "2025-03-01" "09:00" Team.home none none [exPlayer]

def exRunning : Game := startGameTimer 1000 "2025-03-01" "09:05" exGame

/-! ## C6: resetGameLineup -/

/-- C6: `resetGameLineup` yields a game whose lineup has exactly one
bench-located entry per current roster player with `playtimeSeconds`,
`subbedOnCount`, `subbedOffCount` all zero and `playtimerStartTime` null,
whose events list is empty, whose scores are 0, and whose clock is stopped
with `timerElapsedSeconds` 0, `timerStartTime` null and
`isExplicitlyFinished` false. -/
theorem reset_lineup_spec (players : List Player) (g : Game) :
    (resetGameLineup players g).lineup = some (createDefaultLineup players) ∧
    ((createDefaultLineup players).map (fun q => q.id) =
      players.map (fun p => p.id)) ∧
    (∀ q ∈ createDefaultLineup players,
      q.location = Loc.bench ∧ q.playtimeSeconds = 0 ∧
      q.subbedOnCount = 0 ∧ q.subbedOffCount = 0 ∧
      q.playtimerStartTime = none) ∧
    (resetGameLineup players g).events = [] ∧
    (resetGameLineup players g).homeScore = 0 ∧
    (resetGameLineup players g).awayScore = 0 ∧
    (resetGameLineup players g).timerStatus = TimerStatus.stopped ∧
    (resetGameLineup players g).timerElapsedSeconds = 0 ∧
    (resetGameLineup players g).timerStartTime = none ∧
    (resetGameLineup players g).isExplicitlyFinished = false := by
  refine ⟨rfl, ?_, ?_, rfl, rfl, rfl, rfl, rfl, rfl, rfl⟩
  · simp [createDefaultLineup]
  · intro q hq
    simp only [createDefaultLineup, List.mem_map] at hq
    obtain ⟨p, _, rfl⟩ := hq
    exact ⟨rfl, rfl, rfl, rfl, rfl⟩

theorem reset_lineup_spec_wit :
    (resetGameLineup [exPlayer] exRunning).events = [] ∧
    ((createDefaultLineup [exPlayer]).map (fun q => q.id) = ["p1"]) ∧
    ({ id := "p1", location := Loc.bench, position := none,
       initialPosition := none, playtimeSeconds := 0,
       playtimerStartTime := none, isStarter := some false,
       subbedOnCount := 0, subbedOffCount := 0 } :
        PlayerLineupState).location = Loc.bench :=
  ⟨(reset_lineup_spec [exPlayer] exRunning).2.2.2.1,
   (reset_lineup_spec [exPlayer] exRunning).2.1,
   ((reset_lineup_spec [exPlayer] exRunning).2.2.1 _
      (by simp [createDefaultLineup, exPlayer])).1⟩

/-! ## C10: startGameTimer frame -/

/-- C10: on a non-finished game, `startGameTimer` overwrites the scheduled
date and time with the current wall-clock date and time, starts the clock
(status running, `timerStartTime` = now, `isExplicitlyFinished` false), and
changes no game field other than date, time, timerStatus, timerStartTime,
isExplicitlyFinished and lineup. -/
theorem start_timer_frame_spec (now : Int) (d t : String) (g : Game)
    (h : g.isExplicitlyFinished = false) :
    (startGameTimer now d t g).date = d ∧
    (startGameTimer now d t g).time = t ∧
    (startGameTimer now d t g).timerStatus = TimerStatus.running ∧
    (startGameTimer now d t g).timerStartTime = some now ∧
    (startGameTimer now d t g).isExplicitlyFinished = false ∧
    (startGameTimer now d t g).id = g.id ∧
    (startGameTimer now d t g).opponent = g.opponent ∧
    (startGameTimer now d t g).location = g.location ∧
    (startGameTimer now d t g).season = g.season ∧
    (startGameTimer now d t g).competition = g.competition ∧
    (startGameTimer now d t g).homeScore = g.homeScore ∧
    (startGameTimer now d t g).awayScore = g.awayScore ∧
    (startGameTimer now d t g).timerElapsedSeconds = g.timerElapsedSeconds ∧
    (startGameTimer now d t g).events = g.events := by
  have hng : ¬ g.isExplicitlyFinished := by simp [h]
  unfold startGameTimer
  rw [if_neg hng]
  refine ⟨?_, ?_, rfl, rfl, rfl, rfl, rfl, rfl, rfl, rfl, rfl, rfl, rfl, rfl⟩
  · by_cases hd : g.date = d <;> simp [hd]
  · by_cases ht : g.time = t <;> simp [ht]

theorem start_timer_frame_spec_wit :
    exGame.isExplicitlyFinished = false ∧
    (startGameTimer 1000 "2025-03-01" "09:05" exGame).date = "2025-03-01" ∧
    (startGameTimer 1000 "2025-03-01" "09:05" exGame).timerStatus =
      TimerStatus.running :=
  ⟨rfl,
   (start_timer_frame_spec 1000 "2025-03-01" "09:05" exGame rfl).1,
   (start_timer_frame_spec 1000 "2025-03-01" "09:05" exGame rfl).2.2.1⟩

lemma list_get?_lt {α : Type} :
    ∀ (l : List α) (i : Nat) (a : α), l.get? i = some a → i < l.length
  | [], i, a => by intro h; simp at h
  | x :: xs, 0, a => by intro _; simp
  | x :: xs, i + 1, a => by
    intro h
    have := list_get?_lt xs i a h
    simpa using Nat.succ_lt_succ this

/-- The extra milliseconds the live clock has accrued beyond
`timerElapsedSeconds`, as read by `addGameEvent` and `movePlayerInGame` when
stamping an event with `gameSeconds`. -/
def runningDeltaMs (now : Int) (g : Game) : Int :=
  if g.timerStatus = TimerStatus.running ∧ truthy g.timerStartTime then
    now - g.timerStartTime.getD 0
  else 0

/-! ## C4: substitution events and counters of movePlayerInGame -/

/-- C4: on a game-active game, a bench→field move appends exactly one
substitution event carrying `playerInId` (no `playerOutId`) and bumps the
moved player's `subbedOnCount` by one; a field→bench move appends exactly
one event carrying `playerOutId` and bumps `subbedOffCount`; every other
source/target pair appends no event and leaves both counters unchanged. -/
theorem move_substitution_spec (now : Int) (eid pid : String)
    (pos : Option Pos) (g : Game) (l : List PlayerLineupState) (idx : Nat)
    (p : PlayerLineupState)
    (hl : g.lineup = some l)
    (hfind : l.findIdx? (fun q => q.id == pid) = some idx)
    (hget : l.get? idx = some p)
    (hact : isGameActive g = true) :
    (∃ e, (movePlayerInGame now eid pid Loc.bench Loc.field pos g).events =
        g.events ++ [e] ∧
      e.type = EventType.substitution ∧
      e.playerInId = some pid ∧ e.playerOutId = none) ∧
    ((((movePlayerInGame now eid pid Loc.bench Loc.field pos g).lineup.getD
        []).get? idx).map (fun q => (q.subbedOnCount, q.subbedOffCount)) =
      some (p.subbedOnCount + 1, p.subbedOffCount)) ∧
    (∃ e, (movePlayerInGame now eid pid Loc.field Loc.bench pos g).events =
        g.events ++ [e] ∧
      e.type = EventType.substitution ∧
      e.playerOutId = some pid ∧ e.playerInId = none) ∧
    ((((movePlayerInGame now eid pid Loc.field Loc.bench pos g).lineup.getD
        []).get? idx).map (fun q => (q.subbedOnCount, q.subbedOffCount)) =
      some (p.subbedOnCount, p.subbedOffCount + 1)) ∧
    (∀ src tgt, ¬(src = Loc.bench ∧ tgt = Loc.field) →
      ¬(src = Loc.field ∧ tgt = Loc.bench) →
      (movePlayerInGame now eid pid src tgt pos g).events = g.events ∧
      ((((movePlayerInGame now eid pid src tgt pos g).lineup.getD
          []).get? idx).map (fun q => (q.subbedOnCount, q.subbedOffCount)) =
        some (p.subbedOnCount, p.subbedOffCount))) := by
  have hlt : idx < l.length := list_get?_lt l idx p hget
  refine ⟨?_, ?_, ?_, ?_, ?_⟩
  · have hev : (movePlayerInGame now eid pid Loc.bench Loc.field pos g).events =
        g.events ++ [(⟨eid, EventType.substitution,
          (if g.location = Team.home then Team.home else Team.away),
          none, none, some pid, none, now,
          roundSec (1000 * g.timerElapsedSeconds + runningDeltaMs now g)⟩ :
            GameEvent)] := by
      simp only [movePlayerInGame, hl, hfind, hget, runningDeltaMs]
      simp [hact]
    exact ⟨_, hev, rfl, rfl, rfl⟩
  · simp only [movePlayerInGame, hl, hfind, hget]
    simp only [Option.getD_some, list_get?_set_self l idx _ hlt]
    simp [hact]
  · have hev : (movePlayerInGame now eid pid Loc.field Loc.bench pos g).events =
        g.events ++ [(⟨eid, EventType.substitution,
          (if g.location = Team.home then Team.home else Team.away),
          none, none, none, some pid, now,
          roundSec (1000 * g.timerElapsedSeconds + runningDeltaMs now g)⟩ :
            GameEvent)] := by
      simp only [movePlayerInGame, hl, hfind, hget, runningDeltaMs]
      simp [hact]
    exact ⟨_, hev, rfl, rfl, rfl⟩
  · simp only [movePlayerInGame, hl, hfind, hget]
    simp only [Option.getD_some, list_get?_set_self l idx _ hlt]
    simp [hact]
  · intro src tgt h1 h2
    constructor
    · simp only [movePlayerInGame, hl, hfind, hget]
      cases src <;> cases tgt <;> simp_all
    · simp only [movePlayerInGame, hl, hfind, hget]
      simp only [Option.getD_some, list_get?_set_self l idx _ hlt]
      cases src <;> cases tgt <;> simp_all

/-- The single lineup entry of `exRunning`. -/
def exEntry : PlayerLineupState :=
  ⟨"p1", Loc.bench, none, none, 0, none, some true, 0, 0⟩

theorem move_substitution_spec_wit :
    exRunning.lineup = some [exEntry] ∧
    isGameActive exRunning = true ∧
    ∃ e, (movePlayerInGame 2000 "s1" "p1" Loc.bench Loc.field
        (some ⟨50, 50⟩) exRunning).events = exRunning.events ++ [e] ∧
      e.type = EventType.substitution ∧
      e.playerInId = some "p1" ∧ e.playerOutId = none :=
  ⟨by decide, by decide,
   (move_substitution_spec 2000 "s1" "p1" (some ⟨50, 50⟩) exRunning
      [exEntry] 0 exEntry (by decide) (by decide) (by decide) (by decide)).1⟩

/-! ## C9: substitution event team -/

/-- C9: every substitution event appended by `movePlayerInGame` carries team
home exactly when the game's home/away flag is home, independent of the
moved player. -/
theorem substitution_event_team_spec (now : Int) (eid pid : String)
    (src tgt : Loc) (pos : Option Pos) (g : Game) (e : GameEvent)
    (h : (movePlayerInGame now eid pid src tgt pos g).events =
      g.events ++ [e]) :
    (e.team = Team.home ↔ g.location = Team.home) := by
  have shape :
      (movePlayerInGame now eid pid src tgt pos g).events = g.events ∨
      ∃ e2, (movePlayerInGame now eid pid src tgt pos g).events =
          g.events ++ [e2] ∧
        e2.team = (if g.location = Team.home then Team.home else Team.away) := by
    unfold movePlayerInGame
    split
    · exact Or.inl rfl
    · split
      · exact Or.inl rfl
      · split
        · exact Or.inl rfl
        · dsimp only
          split
          · rename_i e2 he
            refine Or.inr ⟨e2, rfl, ?_⟩
            split at he
            · exact (Option.some.inj he) ▸ rfl
            · split at he
              · exact (Option.some.inj he) ▸ rfl
              · exact absurd he (by simp)
          · exact Or.inl rfl
  rcases shape with hsame | ⟨e2, he2, hteam⟩
  · rw [hsame] at h
    exact absurd (congrArg List.length h) (by simp)
  · rw [h] at he2
    have : e = e2 := by
      have := List.append_inj_right he2 rfl
      simpa using this
    subst this
    rw [hteam]
    cases hloc : g.location <;> simp

theorem substitution_event_team_spec_wit :
    ((⟨"s1", EventType.substitution, Team.home, none, none, some "p1", none,
        2000, 1⟩ : GameEvent).team = Team.home ↔
      exRunning.location = Team.home) :=
  substitution_event_team_spec 2000 "s1" "p1" Loc.bench Loc.field
    (some ⟨50, 50⟩) exRunning _ (by decide)
/-! ## C5: removeLastGameEvent -/

lemma lastGoalIndex_none_iff (team : Team) :
    ∀ es : List GameEvent,
      lastGoalIndex team es = none ↔
        ∀ e ∈ es, ¬(e.type = EventType.goal ∧ e.team = team)
  | [] => by simp [lastGoalIndex]
  | e :: rest => by
    have ih := lastGoalIndex_none_iff team rest
    constructor
    · intro hnone
      unfold lastGoalIndex at hnone
      cases h : lastGoalIndex team rest with
      | some i => rw [h] at hnone; exact absurd hnone (by simp)
      | none =>
        rw [h] at hnone
        intro x hx
        rcases List.mem_cons.mp hx with rfl | hx
        · intro hmatch
          rw [if_pos hmatch] at hnone
          exact absurd hnone (by simp)
        · exact (ih.mp h) x hx
    · intro hall
      unfold lastGoalIndex
      cases h : lastGoalIndex team rest with
      | some i =>
        exfalso
        have hne : lastGoalIndex team rest ≠ none := by rw [h]; simp
        exact hne (ih.mpr (fun x hx => hall x (List.mem_cons_of_mem _ hx)))
      | none =>
        rw [if_neg (hall e (List.mem_cons_self _ _))]

lemma lastGoalIndex_get (team : Team) :
    ∀ (es : List GameEvent) (i : Nat), lastGoalIndex team es = some i →
      ∃ e, es.get? i = some e ∧ e.type = EventType.goal ∧ e.team = team
  | [], i => by intro h; simp [lastGoalIndex] at h
  | e :: rest, i => by
    intro h
    unfold lastGoalIndex at h
    cases hr : lastGoalIndex team rest with
    | some j =>
      rw [hr] at h
      have hij : i = j + 1 := (Option.some.inj h).symm
      subst hij
      exact lastGoalIndex_get team rest j hr
    | none =>
      rw [hr] at h
      by_cases hm : e.type = EventType.goal ∧ e.team = team
      · rw [if_pos hm] at h
        have hi : i = 0 := (Option.some.inj h).symm
        subst hi
        exact ⟨e, rfl, hm⟩
      · rw [if_neg hm] at h
        exact absurd h (by simp)

lemma lastGoalIndex_maximal (team : Team) :
    ∀ (es : List GameEvent) (i : Nat), lastGoalIndex team es = some i →
      ∀ j e, i < j → es.get? j = some e →
        ¬(e.type = EventType.goal ∧ e.team = team)
  | [], i => by intro h; simp [lastGoalIndex] at h
  | x :: rest, i => by
    intro h j e hij hget
    unfold lastGoalIndex at h
    cases hr : lastGoalIndex team rest with
    | some k =>
      rw [hr] at h
      have hik : i = k + 1 := (Option.some.inj h).symm
      subst hik
      cases j with
      | zero => exact absurd hij (by omega)
      | succ j2 =>
        exact lastGoalIndex_maximal team rest k hr j2 e (by omega) hget
    | none =>
      rw [hr] at h
      by_cases hm : x.type = EventType.goal ∧ x.team = team
      · rw [if_pos hm] at h
        have hi : i = 0 := (Option.some.inj h).symm
        subst hi
        cases j with
        | zero => exact absurd hij (by omega)
        | succ j2 =>
          have hmem : e ∈ rest := List.get?_mem hget
          exact ((lastGoalIndex_none_iff team rest).mp hr) e hmem
      · rw [if_neg hm] at h
        exact absurd h (by simp)

/-- C5: `removeLastGameEvent` removes exactly the newest goal event of the
given team (all other events keep their order), decrements that team's score
by one floored at zero, and leaves every other game field unchanged; when no
goal event for that team exists, the whole game is unchanged. -/
theorem remove_last_goal_spec (g : Game) (team : Team) :
    (∀ i, lastGoalIndex team g.events = some i →
      (∃ e, g.events.get? i = some e ∧
        e.type = EventType.goal ∧ e.team = team) ∧
      (∀ j e, i < j → g.events.get? j = some e →
        ¬(e.type = EventType.goal ∧ e.team = team)) ∧
      (removeLastGameEvent team g).events = g.events.eraseIdx i ∧
      (removeLastGameEvent team g).homeScore =
        (if team = Team.home then max 0 (g.homeScore - 1) else g.homeScore) ∧
      (removeLastGameEvent team g).awayScore =
        (if team = Team.away then max 0 (g.awayScore - 1) else g.awayScore) ∧
      (removeLastGameEvent team g).lineup = g.lineup ∧
      (removeLastGameEvent team g).timerStatus = g.timerStatus ∧
      (removeLastGameEvent team g).timerStartTime = g.timerStartTime ∧
      (removeLastGameEvent team g).timerElapsedSeconds =
        g.timerElapsedSeconds ∧
      (removeLastGameEvent team g).isExplicitlyFinished =
        g.isExplicitlyFinished) ∧
    ((∀ e ∈ g.events, ¬(e.type = EventType.goal ∧ e.team = team)) →
      removeLastGameEvent team g = g) := by
  constructor
  · intro i hi
    refine ⟨lastGoalIndex_get team g.events i hi,
      lastGoalIndex_maximal team g.events i hi, ?_⟩
    unfold removeLastGameEvent
    rw [hi]
    exact ⟨rfl, rfl, rfl, rfl, rfl, rfl, rfl, rfl⟩
  · intro hall
    unfold removeLastGameEvent
    rw [(lastGoalIndex_none_iff team g.events).mpr hall]

/-- A game with one home goal logged at t=2000 on the running `exRunning`. -/
def exScored : Game :=
  addGameEvent 2000 "ev1" Team.home (some "p1") none exRunning

theorem remove_last_goal_spec_wit :
    lastGoalIndex Team.home exScored.events = some 0 ∧
    (removeLastGameEvent Team.home exScored).events =
      exScored.events.eraseIdx 0 ∧
    removeLastGameEvent Team.away exScored = exScored :=
  ⟨by decide,
   ((remove_last_goal_spec exScored Team.home).1 0 (by decide)).2.2.1,
   (remove_last_goal_spec exScored Team.away).2 (by decide)⟩

/-! ## C1: scores match goal-event counts -/

/-! ## Reachability: the engine's operations from a freshly created game -/

def isTeamGoal (team : Team) (e : GameEvent) : Bool :=
  decide (e.type = EventType.goal ∧ e.team = team)

def goalCount (team : Team) (events : List GameEvent) : Int :=
  ((events.filter (isTeamGoal team)).length : Int)

/-- The score/event-log consistency invariant of the spec: each team's score
equals the number of its goal events. -/
def scoreInv (g : Game) : Prop :=
  g.homeScore = goalCount Team.home g.events ∧
  g.awayScore = goalCount Team.away g.events

/-- One engine operation applied to a game, with an arbitrary positive
wall-clock instant (`Date.now()` of a real run is always positive). -/
inductive Step : Game → Game → Prop where
  | start (now : Int) (d t : String) (g : Game) :
      0 < now → Step g (startGameTimer now d t g)
  | stop (now : Int) (g : Game) : 0 < now → Step g (stopGameTimer now g)
  | finish (now : Int) (g : Game) : 0 < now → Step g (markGameAsFinished now g)
  | move (now : Int) (eid pid : String) (src tgt : Loc) (pos : Option Pos)
      (g : Game) : 0 < now → Step g (movePlayerInGame now eid pid src tgt pos g)
  | startPlayer (now : Int) (pid : String) (g : Game) :
      0 < now → Step g (startPlayerTimerInGame now pid g)
  | stopPlayer (now : Int) (pid : String) (g : Game) :
      0 < now → Step g (stopPlayerTimerInGame now pid g)
  | goal (now : Int) (eid : String) (team : Team) (sc asst : Option String)
      (g : Game) : 0 < now → Step g (addGameEvent now eid team sc asst g)
  | removeGoal (team : Team) (g : Game) : Step g (removeLastGameEvent team g)
  | reset (players : List Player) (g : Game) :
      Step g (resetGameLineup players g)

/-- Game states reachable by engine operations from a freshly created game
(`addGame`). -/
inductive Reachable : Game → Prop where
  | base (gid opp date time : String) (loc : Team)
      (season comp : Option String) (players : List Player) :
      Reachable (addGame gid opp date time loc season comp players)
  | step (g g2 : Game) : Reachable g → Step g g2 → Reachable g2

lemma goalCount_cons (t : Team) (x : GameEvent) (l : List GameEvent) :
    goalCount t (x :: l) =
      (if isTeamGoal t x then 1 else 0) + goalCount t l := by
  simp only [goalCount, List.filter_cons]
  by_cases h : isTeamGoal t x
  · simp [h]
    omega
  · simp [h]

lemma goalCount_append_one (t : Team) (es : List GameEvent) (e : GameEvent) :
    goalCount t (es ++ [e]) =
      goalCount t es + (if isTeamGoal t e then 1 else 0) := by
  simp only [goalCount, List.filter_append]
  by_cases h : isTeamGoal t e <;> simp [h]

lemma goalCount_nonneg (t : Team) (es : List GameEvent) : 0 ≤ goalCount t es :=
  Int.natCast_nonneg _

lemma goalCount_erase (t : Team) :
    ∀ (es : List GameEvent) (i : Nat), lastGoalIndex t es = some i →
      goalCount t (es.eraseIdx i) + 1 = goalCount t es
  | [], i => by intro h; simp [lastGoalIndex] at h
  | x :: rest, i => by
    intro h
    unfold lastGoalIndex at h
    cases hr : lastGoalIndex t rest with
    | some k =>
      rw [hr] at h
      have hik : i = k + 1 := (Option.some.inj h).symm
      subst hik
      have ih := goalCount_erase t rest k hr
      have he : (x :: rest).eraseIdx (k + 1) = x :: rest.eraseIdx k := rfl
      rw [he, goalCount_cons, goalCount_cons]
      omega
    | none =>
      rw [hr] at h
      by_cases hm : x.type = EventType.goal ∧ x.team = t
      · rw [if_pos hm] at h
        have hi : i = 0 := (Option.some.inj h).symm
        subst hi
        have he : (x :: rest).eraseIdx 0 = rest := rfl
        rw [he, goalCount_cons]
        have ht : isTeamGoal t x = true := by simp [isTeamGoal, hm.1, hm.2]
        rw [ht]
        simp
        omega
      · rw [if_neg hm] at h
        exact absurd h (by simp)

lemma goalCount_erase_other (t t2 : Team) (hne : t2 ≠ t) :
    ∀ (es : List GameEvent) (i : Nat), lastGoalIndex t es = some i →
      goalCount t2 (es.eraseIdx i) = goalCount t2 es
  | [], i => by intro h; simp [lastGoalIndex] at h
  | x :: rest, i => by
    intro h
    unfold lastGoalIndex at h
    cases hr : lastGoalIndex t rest with
    | some k =>
      rw [hr] at h
      have hik : i = k + 1 := (Option.some.inj h).symm
      subst hik
      have ih := goalCount_erase_other t t2 hne rest k hr
      have he : (x :: rest).eraseIdx (k + 1) = x :: rest.eraseIdx k := rfl
      rw [he, goalCount_cons, goalCount_cons]
      omega
    | none =>
      rw [hr] at h
      by_cases hm : x.type = EventType.goal ∧ x.team = t
      · rw [if_pos hm] at h
        have hi : i = 0 := (Option.some.inj h).symm
        subst hi
        have he : (x :: rest).eraseIdx 0 = rest := rfl
        rw [he]
        have hf : isTeamGoal t2 x = false := by
          simp only [isTeamGoal, decide_eq_false_iff_not]
          rintro ⟨-, hteam⟩
          exact hne (by rw [← hteam]; exact hm.2)
        rw [goalCount_cons, hf]
        simp
      · rw [if_neg hm] at h
        exact absurd h (by simp)

lemma scoreInv_of_parts (g g2 : Game) (he : g2.events = g.events)
    (hh : g2.homeScore = g.homeScore) (ha : g2.awayScore = g.awayScore)
    (h : scoreInv g) : scoreInv g2 := by
  unfold scoreInv at h ⊢
  rw [he, hh, ha]
  exact h

lemma scoreInv_addGameEvent (g : Game) (now : Int) (eid : String)
    (team : Team) (sc asst : Option String) (h : scoreInv g) :
    scoreInv (addGameEvent now eid team sc asst g) := by
  obtain ⟨hh, ha⟩ := h
  cases team <;>
    exact ⟨by simp [addGameEvent, goalCount_append_one, isTeamGoal, hh],
           by simp [addGameEvent, goalCount_append_one, isTeamGoal, ha]⟩

lemma scoreInv_removeLastGameEvent (g : Game) (team : Team)
    (h : scoreInv g) : scoreInv (removeLastGameEvent team g) := by
  obtain ⟨hh, ha⟩ := h
  cases hi : lastGoalIndex team g.events with
  | none =>
    have hred : removeLastGameEvent team g = g := by
      unfold removeLastGameEvent; rw [hi]
    rw [hred]
    exact ⟨hh, ha⟩
  | some i =>
    have hev : (removeLastGameEvent team g).events = g.events.eraseIdx i := by
      unfold removeLastGameEvent; rw [hi]
    have hhs : (removeLastGameEvent team g).homeScore =
        (if team = Team.home then max 0 (g.homeScore - 1)
         else g.homeScore) := by
      unfold removeLastGameEvent; rw [hi]
    have has : (removeLastGameEvent team g).awayScore =
        (if team = Team.away then max 0 (g.awayScore - 1)
         else g.awayScore) := by
      unfold removeLastGameEvent; rw [hi]
    have herase := goalCount_erase team g.events i hi
    have hnn := goalCount_nonneg team (g.events.eraseIdx i)
    constructor
    · rw [hhs, hev]
      cases team with
      | home => rw [if_pos rfl]; omega
      | away =>
        rw [if_neg (by simp : ¬ Team.away = Team.home),
          goalCount_erase_other Team.away Team.home (by simp) g.events i hi]
        exact hh
    · rw [has, hev]
      cases team with
      | home =>
        rw [if_neg (by simp : ¬ Team.home = Team.away),
          goalCount_erase_other Team.home Team.away (by simp) g.events i hi]
        exact ha
      | away => rw [if_pos rfl]; omega

lemma scoreInv_resetGameLineup (g : Game) (players : List Player) :
    scoreInv (resetGameLineup players g) :=
  ⟨rfl, rfl⟩

lemma scoreInv_startGameTimer (g : Game) (now : Int) (d t : String)
    (h : scoreInv g) : scoreInv (startGameTimer now d t g) := by
  refine scoreInv_of_parts g _ ?_ ?_ ?_ h <;>
    (unfold startGameTimer; split <;> rfl)

lemma scoreInv_stopGameTimer (g : Game) (now : Int) (h : scoreInv g) :
    scoreInv (stopGameTimer now g) := by
  refine scoreInv_of_parts g _ ?_ ?_ ?_ h <;>
    (unfold stopGameTimer; split <;> rfl)

lemma scoreInv_markGameAsFinished (g : Game) (now : Int) (h : scoreInv g) :
    scoreInv (markGameAsFinished now g) :=
  scoreInv_of_parts g _ rfl rfl rfl h

lemma scoreInv_startPlayerTimerInGame (g : Game) (now : Int) (pid : String)
    (h : scoreInv g) : scoreInv (startPlayerTimerInGame now pid g) := by
  refine scoreInv_of_parts g _ ?_ ?_ ?_ h <;>
    (unfold startPlayerTimerInGame; split <;> first | rfl | (split <;> rfl))

lemma scoreInv_stopPlayerTimerInGame (g : Game) (now : Int) (pid : String)
    (h : scoreInv g) : scoreInv (stopPlayerTimerInGame now pid g) := by
  refine scoreInv_of_parts g _ ?_ ?_ ?_ h <;>
    (unfold stopPlayerTimerInGame; split <;> rfl)

lemma move_score_events_shape (now : Int) (eid pid : String)
    (src tgt : Loc) (pos : Option Pos) (g : Game) :
    (movePlayerInGame now eid pid src tgt pos g).homeScore = g.homeScore ∧
    (movePlayerInGame now eid pid src tgt pos g).awayScore = g.awayScore ∧
    ((movePlayerInGame now eid pid src tgt pos g).events = g.events ∨
      ∃ e, (movePlayerInGame now eid pid src tgt pos g).events =
          g.events ++ [e] ∧ e.type = EventType.substitution) := by
  unfold movePlayerInGame
  split
  · exact ⟨rfl, rfl, Or.inl rfl⟩
  · split
    · exact ⟨rfl, rfl, Or.inl rfl⟩
    · split
      · exact ⟨rfl, rfl, Or.inl rfl⟩
      · refine ⟨rfl, rfl, ?_⟩
        dsimp only
        split
        · rename_i e2 he
          refine Or.inr ⟨e2, rfl, ?_⟩
          split at he
          · exact (Option.some.inj he) ▸ rfl
          · split at he
            · exact (Option.some.inj he) ▸ rfl
            · exact absurd he (by simp)
        · exact Or.inl rfl

lemma scoreInv_movePlayerInGame (g : Game) (now : Int) (eid pid : String)
    (src tgt : Loc) (pos : Option Pos) (h : scoreInv g) :
    scoreInv (movePlayerInGame now eid pid src tgt pos g) := by
  obtain ⟨hh2, ha2, hev⟩ := move_score_events_shape now eid pid src tgt pos g
  rcases hev with hev | ⟨e, hev, hsub⟩
  · exact scoreInv_of_parts g _ hev hh2 ha2 h
  · obtain ⟨hh, ha⟩ := h
    constructor
    · rw [hh2, hev, goalCount_append_one]
      have : isTeamGoal Team.home e = false := by
        simp [isTeamGoal, hsub]
      rw [this, hh]
      simp
    · rw [ha2, hev, goalCount_append_one]
      have : isTeamGoal Team.away e = false := by
        simp [isTeamGoal, hsub]
      rw [this, ha]
      simp

lemma scoreInv_addGame (gid opp date time : String) (loc : Team)
    (season comp : Option String) (players : List Player) :
    scoreInv (addGame gid opp date time loc season comp players) :=
  ⟨rfl, rfl⟩

lemma reachable_scoreInv (g : Game) (h : Reachable g) : scoreInv g := by
  induction h with
  | base gid opp date time loc season comp players =>
    exact scoreInv_addGame gid opp date time loc season comp players
  | step g g2 _ hstep ih =>
    cases hstep with
    | start now d t g hpos => exact scoreInv_startGameTimer g now d t ih
    | stop now g hpos => exact scoreInv_stopGameTimer g now ih
    | finish now g hpos => exact scoreInv_markGameAsFinished g now ih
    | move now eid pid src tgt pos g hpos =>
      exact scoreInv_movePlayerInGame g now eid pid src tgt pos ih
    | startPlayer now pid g hpos =>
      exact scoreInv_startPlayerTimerInGame g now pid ih
    | stopPlayer now pid g hpos =>
      exact scoreInv_stopPlayerTimerInGame g now pid ih
    | goal now eid team sc asst g hpos =>
      exact scoreInv_addGameEvent g now eid team sc asst ih
    | removeGoal team g => exact scoreInv_removeLastGameEvent g team ih
    | reset players g => exact scoreInv_resetGameLineup g players

/-- C1: in every reachable game state each team's score equals the number of
goal events for that team, and every engine operation preserves this
invariant. -/
theorem scores_match_goal_counts :
    (∀ g, Reachable g → scoreInv g) ∧
    (∀ g now eid team sc asst, scoreInv g →
      scoreInv (addGameEvent now eid team sc asst g)) ∧
    (∀ g team, scoreInv g → scoreInv (removeLastGameEvent team g)) ∧
    (∀ g players, scoreInv g → scoreInv (resetGameLineup players g)) ∧
    (∀ g now eid pid src tgt pos, scoreInv g →
      scoreInv (movePlayerInGame now eid pid src tgt pos g)) ∧
    (∀ g now d t, scoreInv g → scoreInv (startGameTimer now d t g)) ∧
    (∀ g now, scoreInv g → scoreInv (stopGameTimer now g)) ∧
    (∀ g now, scoreInv g → scoreInv (markGameAsFinished now g)) ∧
    (∀ g now pid, scoreInv g → scoreInv (startPlayerTimerInGame now pid g)) ∧
    (∀ g now pid, scoreInv g → scoreInv (stopPlayerTimerInGame now pid g)) :=
  ⟨reachable_scoreInv,
   fun g now eid team sc asst h => scoreInv_addGameEvent g now eid team sc asst h,
   fun g team h => scoreInv_removeLastGameEvent g team h,
   fun g players _ => scoreInv_resetGameLineup g players,
   fun g now eid pid src tgt pos h =>
     scoreInv_movePlayerInGame g now eid pid src tgt pos h,
   fun g now d t h => scoreInv_startGameTimer g now d t h,
   fun g now h => scoreInv_stopGameTimer g now h,
   fun g now h => scoreInv_markGameAsFinished g now h,
   fun g now pid h => scoreInv_startPlayerTimerInGame g now pid h,
   fun g now pid h => scoreInv_stopPlayerTimerInGame g now pid h⟩

theorem scores_match_goal_counts_wit : scoreInv exScored :=
  scores_match_goal_counts.2.1 exRunning 2000 "ev1" Team.home (some "p1")
    none ⟨rfl, rfl⟩

/-! ## C3: playtimeSeconds is monotone outside resetGameLineup -/

lemma list_get?_map {α β : Type} (f : α → β) :
    ∀ (l : List α) (n : Nat), (l.map f).get? n = (l.get? n).map f
  | [], n => by simp
  | x :: xs, 0 => by rfl
  | x :: xs, n + 1 => by
    simp only [List.map, List.get?]
    exact list_get?_map f xs n

/-- Hypothesis of the playtime claims: every running personal timer in the
lineup was started no later than the current wall-clock instant. -/
def timersLe (now : Int) (g : Game) : Prop :=
  ∀ p ∈ g.lineup.getD [], ∀ st, p.playtimerStartTime = some st → st ≤ now

/-- Entry-wise playtime comparison between the lineups of two game states. -/
def playtimeMono (g g2 : Game) : Prop :=
  ∀ i p q, (g.lineup.getD []).get? i = some p →
    (g2.lineup.getD []).get? i = some q →
    p.playtimeSeconds ≤ q.playtimeSeconds

lemma playtimeMono_refl (g : Game) : playtimeMono g g := by
  intro i p q hp hq
  rw [hp] at hq
  exact le_of_eq (congrArg PlayerLineupState.playtimeSeconds
    (Option.some.inj hq))

lemma playtimeMono_of_eq (g g2 : Game) (h : g2.lineup = g.lineup) :
    playtimeMono g g2 := by
  intro i p q hp hq
  rw [h, hp] at hq
  exact le_of_eq (congrArg PlayerLineupState.playtimeSeconds
    (Option.some.inj hq))

lemma playtimeMono_of_map (g g2 : Game) (l : List PlayerLineupState)
    (f : PlayerLineupState → PlayerLineupState)
    (hg : g.lineup = some l) (hg2 : g2.lineup = some (l.map f))
    (hf : ∀ p ∈ l, p.playtimeSeconds ≤ (f p).playtimeSeconds) :
    playtimeMono g g2 := by
  intro i p q hp hq
  rw [hg] at hp
  rw [hg2] at hq
  simp only [Option.getD_some] at hp hq
  rw [list_get?_map, hp] at hq
  have hq2 : q = f p := (Option.some.inj hq).symm
  rw [hq2]
  exact hf p (List.get?_mem hp)

lemma playtimeMono_of_map2 (g g2 : Game)
    (f : PlayerLineupState → PlayerLineupState)
    (hg2 : g2.lineup = g.lineup.map (List.map f))
    (hf : ∀ p ∈ g.lineup.getD [], p.playtimeSeconds ≤ (f p).playtimeSeconds) :
    playtimeMono g g2 := by
  intro i p q hp hq
  rw [hg2] at hq
  cases hl : g.lineup with
  | none => rw [hl] at hp; simp at hp
  | some l =>
    rw [hl] at hp hq
    simp only [Option.getD_some] at hp
    have hq2 : (l.map f).get? i = some q := hq
    rw [list_get?_map, hp] at hq2
    have hq3 := (Option.some.inj hq2).symm
    rw [hq3]
    exact hf p (by rw [hl]; exact List.get?_mem hp)

lemma flushPlayer_mono (now : Int) (p : PlayerLineupState)
    (h : ∀ st, p.playtimerStartTime = some st → st ≤ now) :
    p.playtimeSeconds ≤ (flushPlayer now p).playtimeSeconds := by
  unfold flushPlayer
  split
  · rename_i hc
    cases hst : p.playtimerStartTime with
    | none => rw [hst] at hc; simp [truthy] at hc
    | some st =>
      have hle := h st hst
      simp only [Option.getD_some]
      exact roundSec_ge_left _ _ (by omega)
  · exact le_refl _

/-- C3: for every player, every operation other than `resetGameLineup`
(`stopGameTimer`, `markGameAsFinished`, `movePlayerInGame`,
`stopPlayerTimerInGame`, `startGameTimer`, `addGameEvent`,
`removeLastGameEvent`) leaves `playtimeSeconds` greater than or equal to its
prior value, provided the wall clock is at or past each running personal
timer's start instant. -/
theorem playtime_monotone (g : Game) (now : Int) (h : timersLe now g) :
    playtimeMono g (stopGameTimer now g) ∧
    playtimeMono g (markGameAsFinished now g) ∧
    (∀ eid pid src tgt pos,
      playtimeMono g (movePlayerInGame now eid pid src tgt pos g)) ∧
    (∀ pid, playtimeMono g (stopPlayerTimerInGame now pid g)) ∧
    (∀ d t, playtimeMono g (startGameTimer now d t g)) ∧
    (∀ eid team sc asst,
      playtimeMono g (addGameEvent now eid team sc asst g)) ∧
    (∀ team, playtimeMono g (removeLastGameEvent team g)) := by
  refine ⟨?_, ?_, ?_, ?_, ?_, ?_, ?_⟩
  · -- stopGameTimer
    unfold stopGameTimer
    split
    · cases hl : g.lineup with
      | none => exact playtimeMono_of_eq g _ (by simp [hl])
      | some l =>
        refine playtimeMono_of_map g _ l (flushPlayer now) hl (by simp [hl]) ?_
        intro p hp
        refine flushPlayer_mono now p ?_
        intro st hst
        exact h p (by rw [hl]; exact hp) st hst
    · exact playtimeMono_refl g
  · -- markGameAsFinished
    have hlin : (markGameAsFinished now g).lineup =
        (if g.timerStatus = TimerStatus.running ∧ truthy g.timerStartTime
         then g.lineup.map (List.map (flushPlayer now)) else g.lineup).map
          (List.map (fun p => { p with playtimerStartTime := none })) := rfl
    by_cases hrec :
        (g.timerStatus = TimerStatus.running ∧ truthy g.timerStartTime)
    · intro i p q hp hq
      rw [hlin, if_pos hrec] at hq
      cases hl : g.lineup with
      | none =>
        rw [hl] at hp
        simp at hp
      | some l =>
        rw [hl] at hp hq
        simp only [Option.getD_some] at hp
        have hq2 : ((l.map (flushPlayer now)).map
            (fun p => { p with playtimerStartTime := none })).get? i
              = some q := hq
        rw [list_get?_map, list_get?_map, hp] at hq2
        have hq3 := (Option.some.inj hq2).symm
        rw [hq3]
        show p.playtimeSeconds ≤ (flushPlayer now p).playtimeSeconds
        refine flushPlayer_mono now p ?_
        intro st hst
        exact h p (by rw [hl]; exact List.get?_mem hp) st hst
    · refine playtimeMono_of_map2 g _
        (fun p => { p with playtimerStartTime := none }) ?_ ?_
      · rw [hlin, if_neg hrec]
      · intro p hp
        exact le_refl _
  · -- movePlayerInGame
    intro eid pid src tgt pos
    unfold movePlayerInGame
    split
    · exact playtimeMono_refl g
    · rename_i l hl
      split
      · exact playtimeMono_refl g
      · rename_i idx hfind
        split
        · exact playtimeMono_refl g
        · rename_i pst hget
          intro i p q hp hq
          rw [hl] at hp
          simp only [Option.getD_some] at hp hq
          by_cases hii : i = idx
          · subst hii
            have hlt : i < l.length := list_get?_lt l i p hp
            rw [list_get?_set_self l i _ hlt] at hq
            have hq2 := (Option.some.inj hq).symm
            rw [hq2]
            have hpp : p = pst := by
              rw [hp] at hget
              exact Option.some.inj hget
            subst hpp
            show p.playtimeSeconds ≤
              (if (src = Loc.field ∨ src = Loc.inactive) ∧
                  truthy p.playtimerStartTime then
                roundSec (1000 * p.playtimeSeconds +
                  (now - p.playtimerStartTime.getD 0))
              else p.playtimeSeconds)
            split
            · rename_i hc
              cases hst : p.playtimerStartTime with
              | none => rw [hst] at hc; simp [truthy] at hc
              | some st =>
                have hle := h p (by rw [hl]; exact List.get?_mem hp) st hst
                simp only [Option.getD_some]
                exact roundSec_ge_left _ _ (by omega)
            · exact le_refl _
          · rw [list_get?_set_ne l idx i _ (fun hc => hii hc.symm)] at hq
            rw [hp] at hq
            exact le_of_eq (congrArg PlayerLineupState.playtimeSeconds
              (Option.some.inj hq))
  · -- stopPlayerTimerInGame
    intro pid
    unfold stopPlayerTimerInGame
    split
    · exact playtimeMono_refl g
    · rename_i l hl
      refine playtimeMono_of_map g _ l _ hl rfl ?_
      intro p hp
      split
      · rename_i hc
        cases hst : p.playtimerStartTime with
        | none => rw [hst] at hc; simp [truthy] at hc
        | some st =>
          have hle := h p (by rw [hl]; exact hp) st hst
          simp only [Option.getD_some]
          exact roundSec_ge_left _ _ (by omega)
      · exact le_refl _
  · -- startGameTimer
    intro d t
    unfold startGameTimer
    split
    · exact playtimeMono_refl g
    · refine playtimeMono_of_map2 g _ _ rfl ?_
      intro p hp
      exact le_refl _
  · -- addGameEvent
    intro eid team sc asst
    exact playtimeMono_of_eq g _ rfl
  · -- removeLastGameEvent
    intro team
    cases hi : lastGoalIndex team g.events with
    | none =>
      refine playtimeMono_of_eq g _ ?_
      show (removeLastGameEvent team g).lineup = g.lineup
      unfold removeLastGameEvent
      rw [hi]
    | some i =>
      refine playtimeMono_of_eq g _ ?_
      show (removeLastGameEvent team g).lineup = g.lineup
      unfold removeLastGameEvent
      rw [hi]

theorem playtime_monotone_wit :
    timersLe 2000 exRunning ∧
    playtimeMono exRunning (stopGameTimer 2000 exRunning) := by
  have ht : timersLe 2000 exRunning := by
    intro p hp st hst
    have hl : exRunning.lineup.getD [] = [exEntry] := rfl
    rw [hl] at hp
    have hpe := List.mem_singleton.mp hp
    rw [hpe] at hst
    exact absurd hst (by simp [exEntry])
  exact ⟨ht, (playtime_monotone exRunning 2000 ht).1⟩

/-! ## C8: running personal timers imply field/inactive location and a running clock -/

/-- Strengthened inductive invariant for C8: every stored timestamp is
positive (wall-clock instants are), and a running personal timer implies a
field-or-inactive location and a running game clock. -/
def timerInvPos (g : Game) : Prop :=
  (∀ st, g.timerStartTime = some st → 0 < st) ∧
  (∀ p ∈ g.lineup.getD [], ∀ st, p.playtimerStartTime = some st →
    0 < st ∧ (p.location = Loc.field ∨ p.location = Loc.inactive) ∧
    g.timerStatus = TimerStatus.running)

lemma timerInvPos_addGame (gid opp date time : String) (loc : Team)
    (season comp : Option String) (players : List Player) :
    timerInvPos (addGame gid opp date time loc season comp players) := by
  constructor
  · intro st hst
    exact absurd hst (by simp [addGame])
  · intro p hp st hst
    have hmem : p ∈ createDefaultLineup players := hp
    obtain ⟨a, _, rfl⟩ := List.mem_map.mp hmem
    exact absurd hst (by simp)

lemma timerInvPos_start (g : Game) (now : Int) (d t : String)
    (hpos : 0 < now) (h : timerInvPos g) :
    timerInvPos (startGameTimer now d t g) := by
  obtain ⟨h1, h2⟩ := h
  unfold startGameTimer
  split
  · exact ⟨h1, h2⟩
  · constructor
    · intro st hst
      have h3 : some now = some st := hst
      rw [← Option.some.inj h3]
      exact hpos
    · intro p hp st hst
      cases hl : g.lineup with
      | none =>
        rw [hl] at hp
        simp at hp
      | some l =>
        rw [hl] at hp
        have hp2 : p ∈ l.map (fun p =>
            { p with
                playtimerStartTime :=
                  if p.location = Loc.field then some now
                  else p.playtimerStartTime
                isStarter := some (if g.timerElapsedSeconds = 0 ∧
                    ¬ truthy g.timerStartTime then
                  decide (p.location = Loc.field ∨ p.location = Loc.bench)
                  else p.isStarter.getD false)
                initialPosition :=
                  if (g.timerElapsedSeconds = 0 ∧ ¬ truthy g.timerStartTime) ∧
                      p.location = Loc.field then p.position
                  else p.initialPosition }) := hp
        obtain ⟨a, ha, rfl⟩ := List.mem_map.mp hp2
        by_cases hfield : a.location = Loc.field
        · rw [if_pos hfield] at hst
          refine ⟨?_, Or.inl hfield, rfl⟩
          rw [← Option.some.inj hst]
          exact hpos
        · rw [if_neg hfield] at hst
          have h4 := h2 a (by rw [hl]; exact ha) st hst
          exact ⟨h4.1, h4.2.1, rfl⟩

lemma timerInvPos_stop (g : Game) (now : Int) (h : timerInvPos g) :
    timerInvPos (stopGameTimer now g) := by
  obtain ⟨h1, h2⟩ := h
  unfold stopGameTimer
  split
  · constructor
    · intro st hst
      exact absurd hst (by simp)
    · intro p hp st hst
      cases hl : g.lineup with
      | none =>
        rw [hl] at hp
        simp at hp
      | some l =>
        rw [hl] at hp
        have hp2 : p ∈ l.map (flushPlayer now) := hp
        obtain ⟨a, ha, rfl⟩ := List.mem_map.mp hp2
        exfalso
        unfold flushPlayer at hst
        by_cases hc : (a.location = Loc.field ∨ a.location = Loc.inactive) ∧
            truthy a.playtimerStartTime
        · rw [if_pos hc] at hst
          exact absurd hst (by simp)
        · rw [if_neg hc] at hst
          have h4 := h2 a (by rw [hl]; exact ha) st hst
          refine hc ⟨h4.2.1, ?_⟩
          rw [hst]
          have hne : st ≠ 0 := by
            have := h4.1
            omega
          simp [truthy, hne]
  · exact ⟨h1, h2⟩

lemma timerInvPos_finish (g : Game) (now : Int) :
    timerInvPos (markGameAsFinished now g) := by
  constructor
  · intro st hst
    exact absurd hst (by simp [markGameAsFinished])
  · intro p hp st hst
    exfalso
    have hlin : (markGameAsFinished now g).lineup =
        (if g.timerStatus = TimerStatus.running ∧ truthy g.timerStartTime
         then g.lineup.map (List.map (flushPlayer now)) else g.lineup).map
          (List.map (fun p => { p with playtimerStartTime := none })) := rfl
    rw [hlin] at hp
    cases hbase : (if g.timerStatus = TimerStatus.running ∧
        truthy g.timerStartTime then
      g.lineup.map (List.map (flushPlayer now)) else g.lineup) with
    | none =>
      rw [hbase] at hp
      simp at hp
    | some l =>
      rw [hbase] at hp
      have hp2 : p ∈ l.map
          (fun p => { p with playtimerStartTime := none }) := hp
      obtain ⟨a, _, rfl⟩ := List.mem_map.mp hp2
      exact absurd hst (by simp)

lemma timerInvPos_startPlayer (g : Game) (now : Int) (pid : String)
    (hpos : 0 < now) (h : timerInvPos g) :
    timerInvPos (startPlayerTimerInGame now pid g) := by
  obtain ⟨h1, h2⟩ := h
  unfold startPlayerTimerInGame
  split
  · exact ⟨h1, h2⟩
  · rename_i l hl
    split
    · rename_i hrun
      constructor
      · exact h1
      · intro p hp st hst
        have hp2 : p ∈ l.map (fun p =>
            if p.id = pid ∧ p.location = Loc.field ∧
                ¬ truthy p.playtimerStartTime then
              { p with playtimerStartTime := some now }
            else p) := hp
        obtain ⟨a, ha, rfl⟩ := List.mem_map.mp hp2
        by_cases hc : a.id = pid ∧ a.location = Loc.field ∧
            ¬ truthy a.playtimerStartTime
        · rw [if_pos hc] at hst
          refine ⟨?_, ?_, hrun⟩
          · have h3 : some now = some st := hst
            rw [← Option.some.inj h3]
            exact hpos
          · rw [if_pos hc]
            exact Or.inl hc.2.1
        · rw [if_neg hc] at hst
          have h4 := h2 a (by rw [hl]; exact ha) st hst
          rw [if_neg hc]
          exact ⟨h4.1, h4.2.1, hrun⟩
    · exact ⟨h1, h2⟩

lemma timerInvPos_stopPlayer (g : Game) (now : Int) (pid : String)
    (h : timerInvPos g) : timerInvPos (stopPlayerTimerInGame now pid g) := by
  obtain ⟨h1, h2⟩ := h
  unfold stopPlayerTimerInGame
  split
  · exact ⟨h1, h2⟩
  · rename_i l hl
    constructor
    · exact h1
    · intro p hp st hst
      have hp2 : p ∈ l.map (fun p =>
          if p.id = pid ∧ truthy p.playtimerStartTime then
            { p with
                playtimeSeconds := roundSec (1000 * p.playtimeSeconds +
                  (now - p.playtimerStartTime.getD 0))
                playtimerStartTime := none }
          else p) := hp
      obtain ⟨a, ha, rfl⟩ := List.mem_map.mp hp2
      by_cases hc : a.id = pid ∧ truthy a.playtimerStartTime
      · rw [if_pos hc] at hst
        exact absurd hst (by simp)
      · rw [if_neg hc] at hst
        have h4 := h2 a (by rw [hl]; exact ha) st hst
        rw [if_neg hc]
        exact h4

lemma timerInvPos_goal (g : Game) (now : Int) (eid : String) (team : Team)
    (sc asst : Option String) (h : timerInvPos g) :
    timerInvPos (addGameEvent now eid team sc asst g) := h

lemma timerInvPos_removeGoal (g : Game) (team : Team) (h : timerInvPos g) :
    timerInvPos (removeLastGameEvent team g) := by
  unfold removeLastGameEvent
  cases hi : lastGoalIndex team g.events with
  | none => exact h
  | some i => exact h

lemma timerInvPos_reset (g : Game) (players : List Player) :
    timerInvPos (resetGameLineup players g) := by
  constructor
  · intro st hst
    exact absurd hst (by simp [resetGameLineup])
  · intro p hp st hst
    have hmem : p ∈ createDefaultLineup players := hp
    obtain ⟨a, _, rfl⟩ := List.mem_map.mp hmem
    exact absurd hst (by simp)

lemma timerInvPos_move (g : Game) (now : Int) (eid pid : String)
    (src tgt : Loc) (pos : Option Pos) (hpos : 0 < now) (h : timerInvPos g) :
    timerInvPos (movePlayerInGame now eid pid src tgt pos g) := by
  obtain ⟨h1, h2⟩ := h
  unfold movePlayerInGame
  split
  · exact ⟨h1, h2⟩
  · rename_i l hl
    split
    · exact ⟨h1, h2⟩
    · rename_i idx hfind
      split
      · exact ⟨h1, h2⟩
      · rename_i pst hget
        constructor
        · exact h1
        · intro p hp st hst
          rcases list_mem_set _ _ _ p hp with rfl | hmem
          · -- the updated player
            simp only at hst ⊢
            by_cases hstart : tgt = Loc.field ∧
                g.timerStatus = TimerStatus.running ∧
                (if (src = Loc.field ∨ src = Loc.inactive) ∧
                    truthy pst.playtimerStartTime then (none : Option Int)
                 else pst.playtimerStartTime) = none
            · rw [if_pos hstart] at hst
              refine ⟨?_, Or.inl hstart.1, hstart.2.1⟩
              have h3 : some now = some st := hst
              rw [← Option.some.inj h3]
              exact hpos
            · rw [if_neg hstart] at hst
              by_cases htgt : tgt ≠ Loc.field
              · rw [if_pos htgt] at hst
                exact absurd hst (by simp)
              · rw [if_neg htgt] at hst
                by_cases hflush : (src = Loc.field ∨ src = Loc.inactive) ∧
                    truthy pst.playtimerStartTime
                · rw [if_pos hflush] at hst
                  exact absurd hst (by simp)
                · rw [if_neg hflush] at hst
                  have hold := h2 pst (by rw [hl]; exact List.get?_mem hget)
                    st hst
                  have htgt2 : tgt = Loc.field := by
                    by_contra hc
                    exact htgt hc
                  exact ⟨hold.1, Or.inl htgt2, hold.2.2⟩
          · have h4 := h2 p (by rw [hl]; exact hmem) st hst
            exact ⟨h4.1, h4.2.1, h4.2.2⟩

lemma reachable_timerInvPos (g : Game) (h : Reachable g) : timerInvPos g := by
  induction h with
  | base gid opp date time loc season comp players =>
    exact timerInvPos_addGame gid opp date time loc season comp players
  | step g g2 _ hstep ih =>
    cases hstep with
    | start now d t g hpos => exact timerInvPos_start g now d t hpos ih
    | stop now g hpos => exact timerInvPos_stop g now ih
    | finish now g hpos => exact timerInvPos_finish g now
    | move now eid pid src tgt pos g hpos =>
      exact timerInvPos_move g now eid pid src tgt pos hpos ih
    | startPlayer now pid g hpos =>
      exact timerInvPos_startPlayer g now pid hpos ih
    | stopPlayer now pid g hpos => exact timerInvPos_stopPlayer g now pid ih
    | goal now eid team sc asst g hpos =>
      exact timerInvPos_goal g now eid team sc asst ih
    | removeGoal team g => exact timerInvPos_removeGoal g team ih
    | reset players g => exact timerInvPos_reset g players

/-- C8: in every game state reachable by the engine's operations from a
freshly created game, a player with a non-null `playtimerStartTime` is
located on the field (or inactive) and the game clock is running. -/
theorem running_player_timer_inv (g : Game) (h : Reachable g) :
    ∀ p ∈ g.lineup.getD [], p.playtimerStartTime ≠ none →
      (p.location = Loc.field ∨ p.location = Loc.inactive) ∧
      g.timerStatus = TimerStatus.running := by
  intro p hp hne
  cases hst : p.playtimerStartTime with
  | none => exact absurd hst hne
  | some st =>
    have h4 := (reachable_timerInvPos g h).2 p hp st hst
    exact ⟨h4.2.1, h4.2.2⟩

/-- `exRunning` after moving player p1 from the bench onto the field. -/
def exMoved : Game :=
  movePlayerInGame 2000 "s1" "p1" Loc.bench Loc.field (some ⟨50, 50⟩) exRunning

/-- The lineup entry of p1 inside `exMoved`. -/
def exEntryMoved : PlayerLineupState :=
  ⟨"p1", Loc.field, some ⟨50, 50⟩, none, 0, some 2000, some true, 1, 0⟩

theorem running_player_timer_inv_wit :
    (exEntryMoved.location = Loc.field ∨ exEntryMoved.location = Loc.inactive)
      ∧ exMoved.timerStatus = TimerStatus.running :=
  running_player_timer_inv exMoved
    (Reachable.step exRunning exMoved
      (Reachable.step exGame exRunning
        (Reachable.base "g1" "Rivals" "2025-03-01" "09:00" Team.home none
          none [exPlayer])
        (Step.start 1000 "2025-03-01" "09:05" exGame (by decide)))
      (Step.move 2000 "s1" "p1" Loc.bench Loc.field (some ⟨50, 50⟩) exRunning
        (by decide)))
    exEntryMoved (by decide) (by decide)
/-! ## C2: elapsed seconds over start/stop/finish traces -/

/-- One clock call: `startGameTimer`, `stopGameTimer` or
`markGameAsFinished`, tagged with its wall-clock instant (and, for start,
the current date/time strings). -/
inductive ClockOp where
  | start (now : Int) (date time : String)
  | stop (now : Int)
  | finish (now : Int)
deriving DecidableEq, Repr

def applyClockOp (g : Game) : ClockOp → Game
  | ClockOp.start now d t => startGameTimer now d t g
  | ClockOp.stop now => stopGameTimer now g
  | ClockOp.finish now => markGameAsFinished now g

def runClockOps (g : Game) : List ClockOp → Game
  | [] => g
  | op :: rest => runClockOps (applyClockOp g op) rest

def opTime : ClockOp → Int
  | ClockOp.start now _ _ => now
  | ClockOp.stop now => now
  | ClockOp.finish now => now

/-- Reference clock: the spec-level state machine.  `runStart` is the
wall-clock instant at which the current maximal running interval began,
`intervals` the millisecond durations of the completed maximal running
intervals in order. -/
structure RefClock where
  runStart : Option Int
  finished : Bool
  intervals : List Int
deriving DecidableEq, Repr

def refStep (s : RefClock) : ClockOp → RefClock
  | ClockOp.start t _ _ =>
    if s.finished then s
    else if s.runStart = none then { s with runStart := some t } else s
  | ClockOp.stop t =>
    match s.runStart with
    | some st =>
      { s with runStart := none, intervals := s.intervals ++ [t - st] }
    | none => s
  | ClockOp.finish t =>
    match s.runStart with
    | some st =>
      { runStart := none, finished := true,
        intervals := s.intervals ++ [t - st] }
    | none => { s with finished := true }

def refRun (s : RefClock) : List ClockOp → RefClock
  | [] => s
  | op :: rest => refRun (refStep s op) rest

def refInit : RefClock := ⟨none, false, []⟩

/-- Sum of the interval durations, each rounded to seconds independently. -/
def sumRounded (l : List Int) : Int := (l.map roundSec).sum

/-- A start call is well-formed only while the clock is stopped. -/
def startOk (s : RefClock) : ClockOp → Bool
  | ClockOp.start _ _ _ => s.runStart.isNone
  | _ => true

def wfClockOps : RefClock → List ClockOp → Bool
  | _, [] => true
  | s, op :: rest => startOk s op && wfClockOps (refStep s op) rest

def timesPos : List ClockOp → Bool
  | [] => true
  | op :: rest => decide (0 < opTime op) && timesPos rest

/-- Simulation relation between an engine game state and the reference
clock. -/
def ClockRel (g : Game) (s : RefClock) : Prop :=
  g.timerStatus =
    (if s.runStart.isSome then TimerStatus.running else TimerStatus.stopped) ∧
  g.timerStartTime = s.runStart ∧
  g.timerElapsedSeconds = sumRounded s.intervals ∧
  g.isExplicitlyFinished = s.finished ∧
  (∀ st, s.runStart = some st → 0 < st)

lemma sumRounded_append (l : List Int) (d : Int) :
    sumRounded (l ++ [d]) = sumRounded l + roundSec d := by
  simp [sumRounded]

lemma clock_step_preserves (g : Game) (s : RefClock) (op : ClockOp)
    (hrel : ClockRel g s) (hok : startOk s op = true)
    (hpos : 0 < opTime op) :
    ClockRel (applyClockOp g op) (refStep s op) := by
  obtain ⟨hstat, hstart, hel, hfin, hrpos⟩ := hrel
  cases op with
  | start now d t =>
    have hrs : s.runStart = none := by
      cases hr : s.runStart with
      | none => rfl
      | some st =>
        rw [show startOk s (ClockOp.start now d t) = s.runStart.isNone
          from rfl, hr] at hok
        simp at hok
    by_cases hf : s.finished
    · have hgf : g.isExplicitlyFinished = true := by rw [hfin, hf]
      have hcode : startGameTimer now d t g = g := by
        unfold startGameTimer
        rw [hgf]
        simp
      have href : refStep s (ClockOp.start now d t) = s := by
        simp only [refStep]
        rw [if_pos hf]
      rw [show applyClockOp g (ClockOp.start now d t) =
        startGameTimer now d t g from rfl, hcode, href]
      exact ⟨hstat, hstart, hel, hfin, hrpos⟩
    · have hgf : g.isExplicitlyFinished = false := by
        rw [hfin]
        simp [hf]
      have href : refStep s (ClockOp.start now d t) =
          { s with runStart := some now } := by
        simp only [refStep]
        rw [if_neg hf, if_pos hrs]
      have hcode : (startGameTimer now d t g).timerStatus =
            TimerStatus.running ∧
          (startGameTimer now d t g).timerStartTime = some now ∧
          (startGameTimer now d t g).timerElapsedSeconds =
            g.timerElapsedSeconds ∧
          (startGameTimer now d t g).isExplicitlyFinished = false := by
        unfold startGameTimer
        rw [hgf]
        exact ⟨rfl, rfl, rfl, rfl⟩
      rw [show applyClockOp g (ClockOp.start now d t) =
        startGameTimer now d t g from rfl, href]
      refine ⟨?_, ?_, ?_, ?_, ?_⟩
      · rw [hcode.1]
        rfl
      · exact hcode.2.1
      · rw [hcode.2.2.1, hel]
      · rw [hcode.2.2.2]
        simp [hf]
      · intro st hst
        have h3 : some now = some st := hst
        rw [← Option.some.inj h3]
        exact hpos
  | stop now =>
    cases hr : s.runStart with
    | some st =>
      have hstp : 0 < st := hrpos st hr
      have hguard : g.timerStatus = TimerStatus.running ∧
          truthy g.timerStartTime := by
        constructor
        · rw [hstat, hr]
          rfl
        · rw [hstart, hr]
          have hne : st ≠ 0 := by omega
          simp [truthy, hne]
      have hcode : stopGameTimer now g =
          { g with
              timerStatus := TimerStatus.stopped
              timerStartTime := none
              timerElapsedSeconds := roundSec (1000 * g.timerElapsedSeconds +
                (now - g.timerStartTime.getD 0))
              lineup := g.lineup.map (List.map (flushPlayer now)) } := by
        unfold stopGameTimer
        rw [if_pos hguard]
      have href : refStep s (ClockOp.stop now) =
          { s with runStart := none,
                   intervals := s.intervals ++ [now - st] } := by
        simp only [refStep]
        rw [hr]
      rw [show applyClockOp g (ClockOp.stop now) = stopGameTimer now g
        from rfl, hcode, href]
      refine ⟨by simp, rfl, ?_, hfin, by simp⟩
      show roundSec (1000 * g.timerElapsedSeconds +
        (now - g.timerStartTime.getD 0)) = sumRounded (s.intervals ++ [now - st])
      rw [hstart, hr]
      simp only [Option.getD_some]
      rw [hel, roundSec_split, sumRounded_append]
    | none =>
      have hgs : g.timerStatus = TimerStatus.stopped := by
        rw [hstat, hr]
        rfl
      have hguard : ¬(g.timerStatus = TimerStatus.running ∧
          truthy g.timerStartTime) := by
        rintro ⟨hc, -⟩
        rw [hgs] at hc
        exact absurd hc (by simp)
      have hcode : stopGameTimer now g = g := by
        unfold stopGameTimer
        rw [if_neg hguard]
      have href : refStep s (ClockOp.stop now) = s := by
        simp only [refStep]
        rw [hr]
      rw [show applyClockOp g (ClockOp.stop now) = stopGameTimer now g
        from rfl, hcode, href]
      exact ⟨hstat, hstart, hel, hfin, hrpos⟩
  | finish now =>
    cases hr : s.runStart with
    | some st =>
      have hstp : 0 < st := hrpos st hr
      have hguard : g.timerStatus = TimerStatus.running ∧
          truthy g.timerStartTime = true := by
        constructor
        · rw [hstat, hr]
          rfl
        · rw [hstart, hr]
          have hne : st ≠ 0 := by omega
          simp [truthy, hne]
      have hcode : (markGameAsFinished now g).timerStatus =
            TimerStatus.stopped ∧
          (markGameAsFinished now g).timerStartTime = none ∧
          (markGameAsFinished now g).timerElapsedSeconds =
            roundSec (1000 * g.timerElapsedSeconds +
              (now - g.timerStartTime.getD 0)) ∧
          (markGameAsFinished now g).isExplicitlyFinished = true := by
        refine ⟨rfl, rfl, ?_, rfl⟩
        show (if g.timerStatus = TimerStatus.running ∧
            truthy g.timerStartTime then
          roundSec (1000 * g.timerElapsedSeconds +
            (now - g.timerStartTime.getD 0))
          else g.timerElapsedSeconds) = _
        rw [if_pos hguard]
      have href : refStep s (ClockOp.finish now) =
          { runStart := none, finished := true,
            intervals := s.intervals ++ [now - st] } := by
        simp only [refStep]
        rw [hr]
      rw [show applyClockOp g (ClockOp.finish now) = markGameAsFinished now g
        from rfl, href]
      refine ⟨?_, ?_, ?_, ?_, by simp⟩
      · rw [hcode.1]
        rfl
      · exact hcode.2.1
      · rw [hcode.2.2.1, hstart, hr]
        simp only [Option.getD_some]
        rw [hel, roundSec_split, sumRounded_append]
      · exact hcode.2.2.2
    | none =>
      have hgs : g.timerStatus = TimerStatus.stopped := by
        rw [hstat, hr]
        rfl
      have hguard : ¬(g.timerStatus = TimerStatus.running ∧
          truthy g.timerStartTime) := by
        rintro ⟨hc, -⟩
        rw [hgs] at hc
        exact absurd hc (by simp)
      have hcode : (markGameAsFinished now g).timerStatus =
            TimerStatus.stopped ∧
          (markGameAsFinished now g).timerStartTime = none ∧
          (markGameAsFinished now g).timerElapsedSeconds =
            g.timerElapsedSeconds ∧
          (markGameAsFinished now g).isExplicitlyFinished = true := by
        refine ⟨rfl, rfl, ?_, rfl⟩
        show (if g.timerStatus = TimerStatus.running ∧
            truthy g.timerStartTime then
          roundSec (1000 * g.timerElapsedSeconds +
            (now - g.timerStartTime.getD 0))
          else g.timerElapsedSeconds) = _
        rw [if_neg hguard]
      have href : refStep s (ClockOp.finish now) =
          { s with finished := true } := by
        simp only [refStep]
        rw [hr]
      rw [show applyClockOp g (ClockOp.finish now) = markGameAsFinished now g
        from rfl, href]
      have hrs2 : ({ s with finished := true } : RefClock).runStart = none := by
        simp [hr]
      refine ⟨?_, ?_, ?_, ?_, ?_⟩
      · rw [hcode.1, hrs2]
        rfl
      · rw [hcode.2.1, hrs2]
      · rw [hcode.2.2.1, hel]
      · exact hcode.2.2.2
      · intro st hst
        rw [hrs2] at hst
        exact absurd hst (by simp)

lemma clock_sim : ∀ (ops : List ClockOp) (g : Game) (s : RefClock),
    ClockRel g s → wfClockOps s ops = true → timesPos ops = true →
    ClockRel (runClockOps g ops) (refRun s ops)
  | [], g, s => by
    intro hrel _ _
    exact hrel
  | op :: rest, g, s => by
    intro hrel hwf hpos
    have hwf2 : startOk s op = true ∧
        wfClockOps (refStep s op) rest = true := by
      have h3 : (startOk s op && wfClockOps (refStep s op) rest) = true := hwf
      simpa [Bool.and_eq_true] using h3
    have hpos2 : 0 < opTime op ∧ timesPos rest = true := by
      have h3 : (decide (0 < opTime op) && timesPos rest) = true := hpos
      simpa [Bool.and_eq_true] using h3
    exact clock_sim rest _ _
      (clock_step_preserves g s op hrel hwf2.1 hpos2.1) hwf2.2 hpos2.2

lemma refRun_append : ∀ (l1 l2 : List ClockOp) (s : RefClock),
    refRun s (l1 ++ l2) = refRun (refRun s l1) l2
  | [], l2, s => rfl
  | op :: rest, l2, s => by
    show refRun (refStep s op) (rest ++ l2) = _
    exact refRun_append rest l2 (refStep s op)

lemma refStep_finish_closes (s : RefClock) (t : Int) :
    (refStep s (ClockOp.finish t)).runStart = none ∧
    (refStep s (ClockOp.finish t)).finished = true := by
  simp only [refStep]
  cases hr : s.runStart with
  | some st => exact ⟨rfl, rfl⟩
  | none => exact ⟨rfl, rfl⟩

/-- C2 (amended): over every well-formed sequence of clock calls — where
`startGameTimer` is only invoked while the clock is stopped — with positive
wall-clock instants and ending in `markGameAsFinished`, the final
`timerElapsedSeconds` of an initially fresh game equals the sum over the
maximal running intervals of each interval's millisecond duration rounded
to the nearest second independently; the final reference clock is closed
and finished.  (A start issued while the clock is already running is NOT
covered: it restarts the open interval and drops its accrued time.) -/
theorem clock_elapsed_sum_of_rounded_intervals (g0 : Game)
    (ops : List ClockOp) (tf : Int)
    (hstat : g0.timerStatus = TimerStatus.stopped)
    (hst : g0.timerStartTime = none)
    (hel : g0.timerElapsedSeconds = 0)
    (hfin : g0.isExplicitlyFinished = false)
    (hwf : wfClockOps refInit (ops ++ [ClockOp.finish tf]) = true)
    (hpos : timesPos (ops ++ [ClockOp.finish tf]) = true) :
    (runClockOps g0 (ops ++ [ClockOp.finish tf])).timerElapsedSeconds =
      sumRounded (refRun refInit (ops ++ [ClockOp.finish tf])).intervals ∧
    (refRun refInit (ops ++ [ClockOp.finish tf])).runStart = none ∧
    (refRun refInit (ops ++ [ClockOp.finish tf])).finished = true := by
  have hrel0 : ClockRel g0 refInit := by
    refine ⟨?_, ?_, ?_, ?_, ?_⟩
    · rw [hstat]; rfl
    · rw [hst]; rfl
    · rw [hel]; rfl
    · rw [hfin]; rfl
    · intro st hst2
      exact absurd hst2 (by simp [refInit])
  have hsim := clock_sim (ops ++ [ClockOp.finish tf]) g0 refInit hrel0 hwf hpos
  refine ⟨hsim.2.2.1, ?_, ?_⟩
  · rw [refRun_append]
    exact (refStep_finish_closes (refRun refInit ops) tf).1
  · rw [refRun_append]
    exact (refStep_finish_closes (refRun refInit ops) tf).2

/-- The counterexample trace for C2 as originally stated: a second start
while the clock is already running, then a finish. -/
def cexClockOps : List ClockOp :=
  [ClockOp.start 1000 "2025-03-01" "09:05",
   ClockOp.start 6000 "2025-03-01" "09:05",
   ClockOp.finish 11000]

/-- C2 counterexample: on the trace start(1s), start(6s), finish(11s) — a
sequence of clock calls with non-decreasing positive timestamps — the
engine ends with `timerElapsedSeconds` 5, while the single maximal running
interval lasts 10 seconds (rounded), so the claimed equality fails. -/
theorem clock_restart_drops_interval_cex :
    timesPos cexClockOps = true ∧
    (runClockOps exGame cexClockOps).timerElapsedSeconds = 5 ∧
    sumRounded (refRun refInit cexClockOps).intervals = 10 ∧
    ¬ (runClockOps exGame cexClockOps).timerElapsedSeconds =
      sumRounded (refRun refInit cexClockOps).intervals :=
  ⟨by decide, by decide, by decide, by decide⟩

def witClockOps : List ClockOp :=
  [ClockOp.start 1000 "2025-03-01" "09:05", ClockOp.stop 2500]

theorem clock_elapsed_sum_of_rounded_intervals_wit :
    (runClockOps exGame
        (witClockOps ++ [ClockOp.finish 4000])).timerElapsedSeconds =
      sumRounded (refRun refInit
        (witClockOps ++ [ClockOp.finish 4000])).intervals :=
  (clock_elapsed_sum_of_rounded_intervals exGame witClockOps 4000 rfl rfl
    rfl rfl (by decide) (by decide)).1
/-! ## C7: isStarter and initialPosition assignment -/

/-- Field preservation relation used by C7: entry-wise, `initialPosition` is
unchanged and a defined `isStarter` keeps its value. -/
def starterFieldsPreserved (g g2 : Game) : Prop :=
  ∀ i p q, (g.lineup.getD []).get? i = some p →
    (g2.lineup.getD []).get? i = some q →
    q.initialPosition = p.initialPosition ∧
    (∀ b, p.isStarter = some b → q.isStarter = some b)

lemma starterFieldsPreserved_refl (g : Game) : starterFieldsPreserved g g := by
  intro i p q hp hq
  rw [hp] at hq
  rw [← Option.some.inj hq]
  exact ⟨rfl, fun b hb => hb⟩

lemma starterFields_of_map2 (g g2 : Game)
    (f : PlayerLineupState → PlayerLineupState)
    (hg2 : g2.lineup = g.lineup.map (List.map f))
    (hf : ∀ p ∈ g.lineup.getD [],
      (f p).initialPosition = p.initialPosition ∧
      (∀ b, p.isStarter = some b → (f p).isStarter = some b)) :
    starterFieldsPreserved g g2 := by
  intro i p q hp hq
  rw [hg2] at hq
  cases hl : g.lineup with
  | none => rw [hl] at hp; simp at hp
  | some l =>
    rw [hl] at hp hq
    simp only [Option.getD_some] at hp
    have hq2 : (l.map f).get? i = some q := hq
    rw [list_get?_map, hp] at hq2
    have hq3 : q = f p := (Option.some.inj hq2).symm
    rw [hq3]
    exact hf p (by rw [hl]; exact List.get?_mem hp)

lemma flushPlayer_fields (now : Int) (p : PlayerLineupState) :
    (flushPlayer now p).initialPosition = p.initialPosition ∧
    (flushPlayer now p).isStarter = p.isStarter := by
  unfold flushPlayer
  split
  · exact ⟨rfl, rfl⟩
  · exact ⟨rfl, rfl⟩

/-- C7 (amended): `startGameTimer` on a game in the fresh clock state
(`timerElapsedSeconds` 0 and no truthy `timerStartTime`) assigns every
entry's `isStarter` (true iff the player is on the field or bench) and, for
field players, captures `initialPosition` from the current position; every
`stopGameTimer`, `markGameAsFinished`, `movePlayerInGame`, and every
`startGameTimer` on a NON-fresh game preserves both fields.  The original
"exactly once / never altered" wording fails because a stop less than
500 ms after the start leaves the clock fresh again, so a later start
re-captures the fields (see the counterexample). -/
theorem starter_fields_spec :
    (∀ g now d t i p,
      g.timerElapsedSeconds = 0 → truthy g.timerStartTime = false →
      g.isExplicitlyFinished = false →
      (g.lineup.getD []).get? i = some p →
      ∃ q, ((startGameTimer now d t g).lineup.getD []).get? i = some q ∧
        q.isStarter = some (decide (p.location = Loc.field ∨
          p.location = Loc.bench)) ∧
        q.initialPosition =
          (if p.location = Loc.field then p.position
           else p.initialPosition)) ∧
    (∀ g now d t,
      ¬(g.timerElapsedSeconds = 0 ∧ ¬ truthy g.timerStartTime) →
      starterFieldsPreserved g (startGameTimer now d t g)) ∧
    (∀ g now, starterFieldsPreserved g (stopGameTimer now g)) ∧
    (∀ g now, starterFieldsPreserved g (markGameAsFinished now g)) ∧
    (∀ g now eid pid src tgt pos,
      starterFieldsPreserved g (movePlayerInGame now eid pid src tgt pos g)) := by
  refine ⟨?_, ?_, ?_, ?_, ?_⟩
  · -- fresh start assigns
    intro g now d t i p h0 hts hnf hp
    have hfresh : g.timerElapsedSeconds = 0 ∧ ¬ truthy g.timerStartTime :=
      ⟨h0, by simp [hts]⟩
    have hgne : ¬ g.isExplicitlyFinished = true := by simp [hnf]
    cases hl : g.lineup with
    | none => rw [hl] at hp; simp at hp
    | some l =>
      rw [hl] at hp
      simp only [Option.getD_some] at hp
      have hlin : (startGameTimer now d t g).lineup = some (l.map (fun p =>
          { p with
              playtimerStartTime :=
                if p.location = Loc.field then some now
                else p.playtimerStartTime
              isStarter := some (if g.timerElapsedSeconds = 0 ∧
                  ¬ truthy g.timerStartTime then
                decide (p.location = Loc.field ∨ p.location = Loc.bench)
                else p.isStarter.getD false)
              initialPosition :=
                if (g.timerElapsedSeconds = 0 ∧ ¬ truthy g.timerStartTime) ∧
                    p.location = Loc.field then p.position
                else p.initialPosition })) := by
        unfold startGameTimer
        rw [if_neg hgne, hl]
        rfl
      refine ⟨{ p with
          playtimerStartTime :=
            if p.location = Loc.field then some now
            else p.playtimerStartTime
          isStarter := some (if g.timerElapsedSeconds = 0 ∧
              ¬ truthy g.timerStartTime then
            decide (p.location = Loc.field ∨ p.location = Loc.bench)
            else p.isStarter.getD false)
          initialPosition :=
            if (g.timerElapsedSeconds = 0 ∧ ¬ truthy g.timerStartTime) ∧
                p.location = Loc.field then p.position
            else p.initialPosition }, ?_, ?_, ?_⟩
      · rw [hlin]
        simp only [Option.getD_some]
        rw [list_get?_map, hp]
        rfl
      · show some (if g.timerElapsedSeconds = 0 ∧ ¬ truthy g.timerStartTime
            then decide (p.location = Loc.field ∨ p.location = Loc.bench)
            else p.isStarter.getD false) = _
        rw [if_pos hfresh]
      · show (if (g.timerElapsedSeconds = 0 ∧ ¬ truthy g.timerStartTime) ∧
            p.location = Loc.field then p.position
            else p.initialPosition) = _
        by_cases hf : p.location = Loc.field
        · rw [if_pos ⟨hfresh, hf⟩, if_pos hf]
        · rw [if_neg (fun hc => hf hc.2), if_neg hf]
  · -- non-fresh start preserves
    intro g now d t hnfresh
    unfold startGameTimer
    split
    · exact starterFieldsPreserved_refl g
    · refine starterFields_of_map2 g _ _ rfl ?_
      intro p hp
      constructor
      · show (if (g.timerElapsedSeconds = 0 ∧ ¬ truthy g.timerStartTime) ∧
            p.location = Loc.field then p.position
            else p.initialPosition) = p.initialPosition
        rw [if_neg (fun hc => hnfresh hc.1)]
      · intro b hb
        show some (if g.timerElapsedSeconds = 0 ∧ ¬ truthy g.timerStartTime
            then decide (p.location = Loc.field ∨ p.location = Loc.bench)
            else p.isStarter.getD false) = some b
        rw [if_neg hnfresh, hb]
        rfl
  · -- stopGameTimer preserves
    intro g now
    unfold stopGameTimer
    split
    · refine starterFields_of_map2 g _ (flushPlayer now) rfl ?_
      intro p hp
      refine ⟨(flushPlayer_fields now p).1, ?_⟩
      intro b hb
      rw [(flushPlayer_fields now p).2, hb]
    · exact starterFieldsPreserved_refl g
  · -- markGameAsFinished preserves
    intro g now
    have hlin : (markGameAsFinished now g).lineup =
        (if g.timerStatus = TimerStatus.running ∧ truthy g.timerStartTime
         then g.lineup.map (List.map (flushPlayer now)) else g.lineup).map
          (List.map (fun p => { p with playtimerStartTime := none })) := rfl
    by_cases hrec :
        (g.timerStatus = TimerStatus.running ∧ truthy g.timerStartTime)
    · intro i p q hp hq
      rw [hlin, if_pos hrec] at hq
      cases hl : g.lineup with
      | none => rw [hl] at hp; simp at hp
      | some l =>
        rw [hl] at hp hq
        simp only [Option.getD_some] at hp
        have hq2 : ((l.map (flushPlayer now)).map
            (fun p => { p with playtimerStartTime := none })).get? i
              = some q := hq
        rw [list_get?_map, list_get?_map, hp] at hq2
        have hq3 : q = { flushPlayer now p with playtimerStartTime := none } :=
          (Option.some.inj hq2).symm
        rw [hq3]
        refine ⟨(flushPlayer_fields now p).1, ?_⟩
        intro b hb
        show (flushPlayer now p).isStarter = some b
        rw [(flushPlayer_fields now p).2, hb]
    · refine starterFields_of_map2 g _
        (fun p => { p with playtimerStartTime := none }) ?_ ?_
      · rw [hlin, if_neg hrec]
      · intro p hp
        exact ⟨rfl, fun b hb => hb⟩
  · -- movePlayerInGame preserves
    intro g now eid pid src tgt pos
    unfold movePlayerInGame
    split
    · exact starterFieldsPreserved_refl g
    · rename_i l hl
      split
      · exact starterFieldsPreserved_refl g
      · rename_i idx hfind
        split
        · exact starterFieldsPreserved_refl g
        · rename_i pst hget
          intro i p q hp hq
          rw [hl] at hp
          simp only [Option.getD_some] at hp hq
          by_cases hii : i = idx
          · subst hii
            have hlt : i < l.length := list_get?_lt l i p hp
            rw [list_get?_set_self l i _ hlt] at hq
            have hq2 := (Option.some.inj hq).symm
            rw [hq2]
            have hpp : p = pst := by
              rw [hp] at hget
              exact Option.some.inj hget
            subst hpp
            exact ⟨rfl, fun b hb => hb⟩
          · rw [list_get?_set_ne l idx i _ (fun hc => hii hc.symm)] at hq
            rw [hp] at hq
            rw [← Option.some.inj hq]
            exact ⟨rfl, fun b hb => hb⟩

/-- Stopping 400 ms after the start rounds the elapsed time back to 0. -/
def cexStopped : Game := stopGameTimer 1400 exRunning

/-- Pre-kickoff (elapsed 0) move of p1 from bench onto the field. -/
def cexMoved : Game :=
  movePlayerInGame 1500 "e1" "p1" Loc.bench Loc.field (some ⟨50, 50⟩)
    cexStopped

/-- A second start: the clock state is fresh again, so capture re-runs. -/
def cexRestarted : Game := startGameTimer 2000 "2025-03-01" "09:10" cexMoved

/-- C7 counterexample: after the first start of the fresh game `exGame`,
p1's `initialPosition` is `none`; the subsequent operation sequence
stop(+400ms) — which leaves `timerElapsedSeconds` 0 — then bench→field
move, then start again, changes it to the current position, so
`initialPosition` is not assigned exactly once and is altered by later
`startGameTimer`/`stopGameTimer`/`movePlayerInGame` operations. -/
theorem initial_position_recaptured_cex :
    (exRunning.lineup.getD []).map (fun p => p.initialPosition) = [none] ∧
    cexStopped.timerElapsedSeconds = 0 ∧
    (cexRestarted.lineup.getD []).map (fun p => p.initialPosition) =
      [some ⟨50, 50⟩] :=
  ⟨by decide, by decide, by decide⟩

/-- The single lineup entry of the freshly created `exGame`. -/
def exEntryFresh : PlayerLineupState :=
  ⟨"p1", Loc.bench, none, none, 0, none, some false, 0, 0⟩

theorem starter_fields_spec_wit :
    exGame.timerElapsedSeconds = 0 ∧
    truthy exGame.timerStartTime = false ∧
    exGame.isExplicitlyFinished = false ∧
    ∃ q, ((startGameTimer 1000 "2025-03-01" "09:05" exGame).lineup.getD
        []).get? 0 = some q ∧
      q.isStarter = some (decide (exEntryFresh.location = Loc.field ∨
        exEntryFresh.location = Loc.bench)) ∧
      q.initialPosition =
        (if exEntryFresh.location = Loc.field then exEntryFresh.position
         else exEntryFresh.initialPosition) :=
  ⟨rfl, rfl, rfl,
   starter_fields_spec.1 exGame 1000 "2025-03-01" "09:05" 0 exEntryFresh
     rfl rfl rfl (by decide)⟩
